import Mathlib

/-!
# WeCan Hub — pickup lifecycle coordinator, shallow embedding

Shallow embedding of the pickup-lifecycle core of the `wecan-hub` repository:

* `src/wecan-hub/pages/driver/jobs.tsx` — the driver job board: the
  `availableJobs` and `myJobs` read queries and the `acceptJob`,
  `markCollected`, `markDelivered` mutations.
* `src/wecan-hub/pages/admin/index_backup.tsx` — the admin dashboard:
  the `impact` full-scan aggregation query and the `updatePickupState`
  mutation (the `updatePickup` mutation of `index_new.tsx` is the same
  code).
* `src/wecan-hub/pages/admin/index_new.tsx` — the `impact` query that
  reads a single `Impact` row via `.single()`.
* `src/supabase/seed.sql` — the `Pickup` and `Impact` table schemas
  (nullable `int` columns on `Impact`, `uuid` keys, `timestamptz`
  stamps).

## Modelling the store (supabase-js v2 over PostgREST)

Every mutation in the source is of the shape
`supabase.from(T).update(fields).eq(f₁, v₁).eq(f₂, v₂)` followed by
`if (error) throw error`, and every insert is
`supabase.from(T).insert(row)`.  The semantics of that client, which the
embedding adopts, are:

* `update(fields).eq(...)...` applies `fields` to **every** row matching
  all the `.eq` filters and leaves every other row untouched;
* a request whose filters match **zero** rows is *not* an error: PostgREST
  answers `204`, supabase-js returns `error: null` (no `.select()` or
  `.single()` is chained on any update in this code), so `if (error)
  throw error` does not throw and the mutation resolves successfully;
* `.select(...).single()` on a read errors unless the result set has
  exactly one row, and otherwise returns that row.

We model the fault-free store: transport/`StoreUnavailable` failures are
out of scope, so the only outcome the embedded mutations can produce is
`Outcome.success`.  The `Outcome` type nevertheless carries the
`conflict`, `notFound` and `invalidActor` constructors named by the
claims, so that statements about them can be made; the embedded code
never produces them.

Timestamps (`created_at`, `updated_at`, ISO strings of `timestamptz`
values in the source) are modelled as `Nat` instants ordered as the
strings are; `uuid` identifiers are modelled as `String`.
-/

namespace WecanHub

/-- `Pickup.state`: `'queued' | 'assigned' | 'collected' | 'delivered'`
(interface `Pickup` in `jobs.tsx`, `check` constraint in `seed.sql`). -/
inductive PState where
  | queued
  | assigned
  | collected
  | delivered
deriving DecidableEq, Repr

/-- Position of a state in the lifecycle chain
`queued → assigned → collected → delivered`. -/
def stateRank : PState → Nat
  | .queued => 0
  | .assigned => 1
  | .collected => 2
  | .delivered => 3

/-- A row of the `Pickup` table (interface `Pickup` in `jobs.tsx`;
`volunteer_id` is nullable — `string | null`). -/
structure Pickup where
  id : String
  bin_id : String
  volunteer_id : Option String
  state : PState
  created_at : Nat
  updated_at : Nat
deriving DecidableEq, Repr

/-- A row of the `Impact` table.  Per `seed.sql` the `cans`,
`revenue_pence` and `meals` columns are nullable `int`s, hence
`Option Int`. -/
structure ImpactRow where
  cans : Option Int
  revenue_pence : Option Int
  meals : Option Int
deriving DecidableEq, Repr

/-- The `{cans, revenue_pence, meals}` totals produced by the admin
dashboard's `impact` aggregation (interface `Impact` in
`index_backup.tsx`). -/
structure ImpactTotals where
  cans : Int
  revenue_pence : Int
  meals : Int
deriving DecidableEq, Repr

/-- The database state the embedded operations act on: the `Pickup`
table and the `Impact` table. -/
structure Store where
  pickups : List Pickup
  impacts : List ImpactRow
deriving DecidableEq, Repr

/-- Outcome of a mutation as observed by its caller (`onSuccess` versus
`onError` of the `useMutation` wrapper).  In the fault-free store model
the embedded code only ever produces `success`; `conflict`, `notFound`
and `invalidActor` are the outcomes named by the spec and are carried
here so the claims about them can be stated. -/
inductive Outcome where
  | success
  | conflict
  | notFound
  | invalidActor
deriving DecidableEq, Repr

/-- `supabase.from('Pickup').update(apply).eq(...)` chain: applies
`apply` to every row satisfying `cond` (the conjunction of the `.eq`
filters) and leaves every other row unchanged. -/
def updateWhere (cond : Pickup → Bool) (apply : Pickup → Pickup)
    (table : List Pickup) : List Pickup :=
  table.map fun r => if cond r then apply r else r

/-- `acceptJob` mutation, `jobs.tsx:108-133`: update
`{state: 'assigned', volunteer_id: user.id, updated_at: now}` on rows
with `id == pickupId` and `state == 'queued'`.  A zero-row match is not
an error (see the header), so the mutation resolves successfully either
way. -/
def acceptJob (userId : String) (pickupId : String) (now : Nat)
    (s : Store) : Store × Outcome :=
  ({ s with
      pickups := updateWhere
        (fun r => r.id == pickupId && r.state == PState.queued)
        (fun r => { r with
          state := PState.assigned
          volunteer_id := some userId
          updated_at := now })
        s.pickups },
   Outcome.success)

/-- `markCollected` mutation, `jobs.tsx:136-157`: update
`{state: 'collected', updated_at: now}` on rows with `id == pickupId`
and `state == 'assigned'`.  The mutation function receives only the
pickup id — it never reads the session user. -/
def markCollected (pickupId : String) (now : Nat)
    (s : Store) : Store × Outcome :=
  ({ s with
      pickups := updateWhere
        (fun r => r.id == pickupId && r.state == PState.assigned)
        (fun r => { r with
          state := PState.collected
          updated_at := now })
        s.pickups },
   Outcome.success)

/-- The fixed impact row inserted by `markDelivered`
(`jobs.tsx:175-181`): `{cans: 200, revenue_pence: 160, meals: 10}`. -/
def deliveryImpact : ImpactRow :=
  { cans := some 200, revenue_pence := some 160, meals := some 10 }

/-- `markDelivered` mutation, `jobs.tsx:160-193`: first the conditional
update `{state: 'delivered', updated_at: now}` on rows with
`id == pickupId` and `state == 'collected'`; then — since a zero-row
update carries `error: null` and `if (pickupError) throw` therefore does
not throw — the insert of `deliveryImpact` into `Impact` runs
unconditionally. -/
def markDelivered (pickupId : String) (now : Nat)
    (s : Store) : Store × Outcome :=
  let pickups' := updateWhere
    (fun r => r.id == pickupId && r.state == PState.collected)
    (fun r => { r with state := PState.delivered, updated_at := now })
    s.pickups
  ({ pickups := pickups', impacts := s.impacts ++ [deliveryImpact] },
   Outcome.success)

/-- `updatePickupState` mutation, `index_backup.tsx:180-195` (the
`updatePickup` mutation at `index_new.tsx:197-202` is the same code):
update `{state, updated_at: now}` on rows with `id == id` — no state
precondition filter, and `volunteer_id` is not touched. -/
def updatePickupState (id : String) (st : PState) (now : Nat)
    (s : Store) : Store × Outcome :=
  ({ s with
      pickups := updateWhere
        (fun r => r.id == id)
        (fun r => { r with state := st, updated_at := now })
        s.pickups },
   Outcome.success)

/-- The `impact` query of `index_backup.tsx:120-140`: select
`cans, revenue_pence, meals` from `Impact` and `reduce` to elementwise
sums, starting at `{cans: 0, revenue_pence: 0, meals: 0}`; the
`(curr.cans || 0)` null-coalescing of the source is `Option.getD 0`. -/
def impactTotals (rows : List ImpactRow) : ImpactTotals :=
  rows.foldl
    (fun acc curr =>
      { cans := acc.cans + curr.cans.getD 0
        revenue_pence := acc.revenue_pence + curr.revenue_pence.getD 0
        meals := acc.meals + curr.meals.getD 0 })
    { cans := 0, revenue_pence := 0, meals := 0 }

/-- The `impact` query of `index_new.tsx:145-156`:
`select('*').single()` over `Impact` — errors (PGRST116, modelled
`none`) unless the table holds exactly one row, which it then returns. -/
def impactSingle (rows : List ImpactRow) : Option ImpactRow :=
  match rows with
  | [r] => some r
  | _ => none

/-- Ordering used by the job-board queries:
`.order('created_at', { ascending: true })`. -/
def createdLe (a b : Pickup) : Prop :=
  a.created_at ≤ b.created_at

instance : DecidableRel createdLe := fun a b =>
  inferInstanceAs (Decidable (a.created_at ≤ b.created_at))

instance : IsTotal Pickup createdLe :=
  ⟨fun a b => Nat.le_total a.created_at b.created_at⟩

instance : IsTrans Pickup createdLe :=
  ⟨fun _ _ _ h h' => Nat.le_trans h h'⟩

/-- The `availableJobs` query, `jobs.tsx:45-72`: rows of `Pickup` with
`state == 'queued'`, ordered by `created_at` ascending.  (The joined
`Bin`/`Partner` columns are display data and not modelled.)  The query
reads the store and mutates nothing: it is a plain function of the
table. -/
def availableJobs (s : Store) : List Pickup :=
  List.insertionSort createdLe
    (s.pickups.filter fun p => p.state == PState.queued)

/-- The `myJobs` query, `jobs.tsx:75-105`: rows of `Pickup` with
`volunteer_id == user.id` and `state in ['assigned', 'collected']`,
ordered by `created_at` ascending.  Reads only; mutates nothing. -/
def myJobs (userId : String) (s : Store) : List Pickup :=
  List.insertionSort createdLe
    (s.pickups.filter fun p =>
      p.volunteer_id == some userId &&
        (p.state == PState.assigned || p.state == PState.collected))

/-- `N` claim calls on the same pickup, serialized by the store (the
per-row atomicity of the `UPDATE ... WHERE` writes serializes concurrent
`acceptJob` calls in some order; the list is that order): each caller's
`acceptJob` runs against the store left by the previous one, and the
outcomes are collected in order. -/
def claimAll (users : List String) (pickupId : String) (now : Nat)
    (s : Store) : Store × List Outcome :=
  match users with
  | [] => (s, [])
  | u :: rest =>
    let r := acceptJob u pickupId now s
    let r' := claimAll rest pickupId now r.1
    (r'.1, r.2 :: r'.2)

/-- The §3 invariant: `volunteer_id` is absent iff `state == queued`,
for every row of the `Pickup` table. -/
def volunteerInvariant (s : Store) : Prop :=
  ∀ p ∈ s.pickups, (p.volunteer_id = none ↔ p.state = PState.queued)

instance (s : Store) : Decidable (volunteerInvariant s) :=
  List.decidableBAll _ s.pickups

/-- One transition step is legal when it leaves the state alone or
advances it exactly one position in the chain
`queued → assigned → collected → delivered`. -/
def stepOk (old new : Pickup) : Prop :=
  new.state = old.state ∨ stateRank new.state = stateRank old.state + 1

instance (a b : Pickup) : Decidable (stepOk a b) :=
  inferInstanceAs (Decidable (_ ∨ _))

/-! ## Concrete fixtures for the closed check theorems -/

/-- A queued pickup, as created by the external report flow. -/
def pickupQueued : Pickup :=
  { id := "p1", bin_id := "b1", volunteer_id := none, state := PState.queued,
    created_at := 0, updated_at := 0 }

/-- The same pickup after a volunteer `v0` claimed it. -/
def pickupAssigned : Pickup :=
  { pickupQueued with volunteer_id := some "v0", state := PState.assigned }

/-- The same pickup after collection. -/
def pickupCollected : Pickup :=
  { pickupQueued with volunteer_id := some "v0", state := PState.collected }

/-- The same pickup after delivery. -/
def pickupDelivered : Pickup :=
  { pickupQueued with volunteer_id := some "v0", state := PState.delivered }

/-- The two-record ledger of the spec's §8 aggregation example. -/
def ledgerTwo : List ImpactRow :=
  [{ cans := some 10, revenue_pence := some 5, meals := some 1 },
   { cans := some 20, revenue_pence := some 10, meals := some 2 }]

/-! ## Helper lemmas -/

/-- A conditional update whose filters match no row leaves the table
unchanged (PostgREST applies the `PATCH` to zero rows). -/
theorem updateWhere_eq_self (cond : Pickup → Bool) (f : Pickup → Pickup)
    (table : List Pickup) (h : ∀ p ∈ table, cond p = false) :
    updateWhere cond f table = table := by
  induction table with
  | nil => rfl
  | cons p l ih =>
    have hp := h p (List.mem_cons_self p l)
    have hl := ih fun q hq => h q (List.mem_cons_of_mem p hq)
    simp only [updateWhere, List.map_cons, hp, Bool.false_eq_true, if_false]
    simpa only [updateWhere] using congrArg (p :: ·) hl

/-- `acceptJob` against a store in which no row with the target id is
`queued`: the conditional update matches zero rows, the store is
unchanged — and, zero matched rows not being a PostgREST error, the
mutation still resolves with `success`. -/
theorem acceptJob_nonqueued (s : Store) (uid pid : String) (now : Nat)
    (h : ∀ p ∈ s.pickups, p.id = pid → p.state ≠ PState.queued) :
    acceptJob uid pid now s = (s, Outcome.success) := by
  unfold acceptJob
  rw [updateWhere_eq_self]
  · intro p hp
    by_cases hid : p.id = pid
    · simp [beq_iff_eq, hid, h p hp hid]
    · simp [beq_iff_eq, hid]

/-- Any number of further `acceptJob` calls against a store in which no
row with the target id is `queued` leave the store unchanged and all
report `success`. -/
theorem claimAll_stuck (users : List String) (pid : String) (now : Nat) (s : Store)
    (h : ∀ p ∈ s.pickups, p.id = pid → p.state ≠ PState.queued) :
    claimAll users pid now s = (s, List.replicate users.length Outcome.success) := by
  induction users with
  | nil => rfl
  | cons u rest ih =>
    simp only [claimAll, acceptJob_nonqueued s u pid now h, ih, List.length_cons,
      List.replicate_succ]

/-- After `acceptJob` on a store whose rows with the target id are all
`queued`, every row with that id is `assigned` to the caller with its
`updated_at` bumped. -/
theorem acceptJob_assigns (s : Store) (uid pid : String) (now : Nat)
    (h : ∀ p ∈ s.pickups, p.id = pid → p.state = PState.queued) :
    ∀ p ∈ (acceptJob uid pid now s).1.pickups,
      p.id = pid →
        p.state = PState.assigned ∧ p.volunteer_id = some uid ∧ p.updated_at = now := by
  intro p hp hid
  unfold acceptJob updateWhere at hp
  simp only [List.mem_map] at hp
  obtain ⟨q, hq, rfl⟩ := hp
  by_cases hc : (q.id == pid && q.state == PState.queued) = true
  · simp only [hc, if_true] at hid ⊢
    simp
  · simp only [Bool.not_eq_true] at hc
    simp only [hc, Bool.false_eq_true, if_false] at hid ⊢
    exact absurd hc (by simp [beq_iff_eq, hid, h q hq hid])

/-- Rowwise description of a conditional update as a `Forall₂` between
the old and the new table. -/
theorem forall₂_updateWhere {R : Pickup → Pickup → Prop} (cond : Pickup → Bool)
    (f : Pickup → Pickup) (l : List Pickup)
    (h : ∀ p ∈ l, R p (if cond p then f p else p)) :
    List.Forall₂ R l (updateWhere cond f l) := by
  unfold updateWhere
  rw [List.forall₂_map_right_iff]
  exact List.forall₂_same.2 h

/-- Rows that satisfy the §3 invariant still satisfy it after a
conditional update whose applied rows satisfy it. -/
theorem invariant_rows_updateWhere (cond : Pickup → Bool) (f : Pickup → Pickup)
    (l : List Pickup)
    (h : ∀ p ∈ l, (p.volunteer_id = none ↔ p.state = PState.queued))
    (hf : ∀ p ∈ l, cond p = true →
        ((f p).volunteer_id = none ↔ (f p).state = PState.queued)) :
    ∀ p ∈ updateWhere cond f l, (p.volunteer_id = none ↔ p.state = PState.queued) := by
  intro p hp
  simp only [updateWhere, List.mem_map] at hp
  obtain ⟨q, hq, rfl⟩ := hp
  by_cases hc : cond q = true
  · simpa only [hc, if_true] using hf q hq hc
  · simp only [Bool.not_eq_true] at hc
    simpa only [hc, Bool.false_eq_true, if_false] using h q hq

/-- The `reduce` of the `impact` query, run from an arbitrary
accumulator, adds the elementwise sums of the remaining rows. -/
theorem impactTotals_foldl (init : ImpactTotals) (rows : List ImpactRow) :
    rows.foldl (fun acc curr =>
      { cans := acc.cans + curr.cans.getD 0
        revenue_pence := acc.revenue_pence + curr.revenue_pence.getD 0
        meals := acc.meals + curr.meals.getD 0 }) init
    = { cans := init.cans + (rows.map fun r => r.cans.getD 0).sum
        revenue_pence := init.revenue_pence + (rows.map fun r => r.revenue_pence.getD 0).sum
        meals := init.meals + (rows.map fun r => r.meals.getD 0).sum } := by
  induction rows generalizing init with
  | nil => simp
  | cons r rs ih =>
    simp only [List.foldl_cons, ih, List.map_cons, List.sum_cons, ImpactTotals.mk.injEq]
    refine ⟨?_, ?_, ?_⟩ <;> ring

/-- The full-scan aggregation is the elementwise sum of the ledger. -/
theorem impactTotals_eq_sums (rows : List ImpactRow) :
    impactTotals rows =
      { cans := (rows.map fun r => r.cans.getD 0).sum
        revenue_pence := (rows.map fun r => r.revenue_pence.getD 0).sum
        meals := (rows.map fun r => r.meals.getD 0).sum } := by
  unfold impactTotals
  rw [impactTotals_foldl]
  simp

end WecanHub
namespace WecanHub

/-! ## Claim theorems -/

/-- Claim C1 — evaluated at its failing input.  The claim states that the
Impact ledger append of `markDelivered` happens only if the conditional
transition to `delivered` succeeded, and that a second `markDelivered`
on the now-`delivered` pickup returns `Conflict` and appends zero
additional records.  The code diverges: on a pickup in `collected`, the
first call transitions it and appends one Impact record; the second
call's conditional update matches zero rows — which supabase does not
report as an error — so it reports success (not `Conflict`) and the
unconditional insert appends a **second** Impact record. -/
theorem C1_markDelivered_double_append :
    (markDelivered "p1" 1 ⟨[pickupCollected], []⟩).2 = Outcome.success
    ∧ (markDelivered "p1" 1 ⟨[pickupCollected], []⟩).1.pickups.map Pickup.state
        = [PState.delivered]
    ∧ (markDelivered "p1" 1 ⟨[pickupCollected], []⟩).1.impacts.length = 1
    ∧ (markDelivered "p1" 2 (markDelivered "p1" 1 ⟨[pickupCollected], []⟩).1).2
        ≠ Outcome.conflict
    ∧ (markDelivered "p1" 2 (markDelivered "p1" 1 ⟨[pickupCollected], []⟩).1).2
        = Outcome.success
    ∧ (markDelivered "p1" 2 (markDelivered "p1" 1 ⟨[pickupCollected], []⟩).1).1.impacts
        = [deliveryImpact, deliveryImpact] :=
  ⟨rfl, by decide, by decide, by decide, rfl, by decide⟩

/-- Claim C2 — counterexample to the claim as stated.  On a pickup in
state `assigned` (hence not `queued`), `acceptJob` leaves the record
entirely unchanged, but its outcome is `success`, not the `Conflict`
the claim asserts: the zero-row conditional update is not an error in
supabase, so the caller cannot distinguish a lost race from a win. -/
theorem C2_counterexample :
    pickupAssigned.state ≠ PState.queued
    ∧ (acceptJob "u2" "p1" 5 ⟨[pickupAssigned], []⟩).1 = ⟨[pickupAssigned], []⟩
    ∧ (acceptJob "u2" "p1" 5 ⟨[pickupAssigned], []⟩).2 = Outcome.success
    ∧ (acceptJob "u2" "p1" 5 ⟨[pickupAssigned], []⟩).2 ≠ Outcome.conflict :=
  ⟨by decide, by decide, rfl, by decide⟩

/-- Claim C2, amended.  A claim (`acceptJob`) on a pickup whose every
row with the target id is not in `queued` never mutates the store — the
conditional update matches zero rows, so it never silently overwrites —
but the operation reports `success`, not a `Conflict` outcome distinct
from `NotFound`. -/
theorem C2_nonqueued_claim_no_mutation (s : Store) (uid pid : String) (now : Nat)
    (h : ∀ p ∈ s.pickups, p.id = pid → p.state ≠ PState.queued) :
    acceptJob uid pid now s = (s, Outcome.success) :=
  acceptJob_nonqueued s uid pid now h

/-- Claim C2 — witness: the amended theorem applied to a concrete store
holding one `assigned` pickup. -/
theorem C2_witness :
    (∀ p ∈ (⟨[pickupAssigned], []⟩ : Store).pickups,
        p.id = "p1" → p.state ≠ PState.queued)
    ∧ acceptJob "u2" "p1" 5 ⟨[pickupAssigned], []⟩
        = (⟨[pickupAssigned], []⟩, Outcome.success) :=
  ⟨by decide,
   C2_nonqueued_claim_no_mutation ⟨[pickupAssigned], []⟩ "u2" "p1" 5 (by decide)⟩

/-- Claim C3 — counterexample to the claim as stated.  Two serialized
claim calls (`"a"` then `"b"`) on the same queued pickup: the loser's
outcome is `success`, not the `Conflict` the claim asserts — though the
post-state is indeed `assigned` to the winner `"a"`. -/
theorem C3_counterexample :
    pickupQueued.state = PState.queued
    ∧ (claimAll ["a", "b"] "p1" 7 ⟨[pickupQueued], []⟩).2
        = [Outcome.success, Outcome.success]
    ∧ (claimAll ["a", "b"] "p1" 7 ⟨[pickupQueued], []⟩).2.getLast? ≠ some Outcome.conflict
    ∧ (claimAll ["a", "b"] "p1" 7 ⟨[pickupQueued], []⟩).1.pickups.map
        (fun p => (p.state, p.volunteer_id)) = [(PState.assigned, some "a")] :=
  ⟨rfl, by decide, by decide, by decide⟩

/-- Claim C3, amended.  Of `N ≥ 1` claim calls on the same queued pickup,
serialized by the store's per-row write atomicity, exactly the first (the
winner) mutates the store: afterwards every row with the pickup's id is
`assigned` with `volunteer_id` the winner's id, the other `N − 1` calls
leave the store exactly as the winner left it — but every call, losers
included, reports `success`, not `Conflict`. -/
theorem C3_serialized_claims (s : Store) (pid : String) (now : Nat)
    (u : String) (rest : List String)
    (h : ∀ p ∈ s.pickups, p.id = pid → p.state = PState.queued) :
    claimAll (u :: rest) pid now s
      = ((acceptJob u pid now s).1,
         List.replicate (rest.length + 1) Outcome.success)
    ∧ ∀ p ∈ (acceptJob u pid now s).1.pickups,
        p.id = pid →
          p.state = PState.assigned ∧ p.volunteer_id = some u ∧ p.updated_at = now := by
  have hassigned := acceptJob_assigns s u pid now h
  have hne : ∀ p ∈ (acceptJob u pid now s).1.pickups,
      p.id = pid → p.state ≠ PState.queued := by
    intro p hp hid
    rw [(hassigned p hp hid).1]
    simp
  refine ⟨?_, hassigned⟩
  simp only [claimAll, claimAll_stuck rest pid now _ hne, List.replicate_succ]
  rfl

/-- Claim C3 — witness: the amended theorem applied to a concrete queued
pickup claimed by `"a"` and then `"b"`. -/
theorem C3_witness :
    (∀ p ∈ (⟨[pickupQueued], []⟩ : Store).pickups, p.id = "p1" → p.state = PState.queued)
    ∧ (claimAll ["a", "b"] "p1" 7 ⟨[pickupQueued], []⟩
        = ((acceptJob "a" "p1" 7 ⟨[pickupQueued], []⟩).1,
           List.replicate 2 Outcome.success)
      ∧ ∀ p ∈ (acceptJob "a" "p1" 7 ⟨[pickupQueued], []⟩).1.pickups,
          p.id = "p1" →
            p.state = PState.assigned ∧ p.volunteer_id = some "a" ∧ p.updated_at = 7) :=
  ⟨by decide, C3_serialized_claims ⟨[pickupQueued], []⟩ "p1" 7 "a" ["b"] (by decide)⟩

end WecanHub
namespace WecanHub

/-- Claim C4 — counterexample to the claim as stated.  The claim
quantifies over *every* operation that mutates pickups, but the admin
`updatePickupState` mutation breaks the invariant: on a store whose only
pickup is `queued` with no volunteer (invariant holds), setting its
state to `assigned` leaves `volunteer_id` absent while the state is no
longer `queued`. -/
theorem C4_counterexample :
    volunteerInvariant ⟨[pickupQueued], []⟩
    ∧ ¬ volunteerInvariant (updatePickupState "p1" PState.assigned 9 ⟨[pickupQueued], []⟩).1 :=
  ⟨by decide, by decide⟩

/-- Claim C4, amended.  The invariant "`volunteer_id` is absent iff
`state == queued`" is preserved by the three coordinator operations
`acceptJob`, `markCollected` and `markDelivered` (for every store and
every argument); the admin `updatePickupState` mutation, which changes
`state` without touching `volunteer_id`, is excluded — it can break the
invariant. -/
theorem C4_coordinator_preserves_invariant (s : Store) (uid pid : String) (now : Nat)
    (h : volunteerInvariant s) :
    volunteerInvariant (acceptJob uid pid now s).1
    ∧ volunteerInvariant (markCollected pid now s).1
    ∧ volunteerInvariant (markDelivered pid now s).1 := by
  refine ⟨?_, ?_, ?_⟩
  · exact invariant_rows_updateWhere _ _ _ h fun q hq hc => by simp
  · refine invariant_rows_updateWhere _ _ _ h fun q hq hc => ?_
    simp only [Bool.and_eq_true, beq_iff_eq] at hc
    have hn : q.volunteer_id ≠ none := by
      intro he
      have hq' := (h q hq).1 he
      rw [hc.2] at hq'
      exact absurd hq' (by simp)
    simp [hn]
  · refine invariant_rows_updateWhere _ _ _ h fun q hq hc => ?_
    simp only [Bool.and_eq_true, beq_iff_eq] at hc
    have hn : q.volunteer_id ≠ none := by
      intro he
      have hq' := (h q hq).1 he
      rw [hc.2] at hq'
      exact absurd hq' (by simp)
    simp [hn]

/-- Claim C4 — witness: the amended theorem applied to a concrete store
holding a queued and an assigned pickup. -/
theorem C4_witness :
    volunteerInvariant ⟨[pickupQueued, pickupAssigned], []⟩
    ∧ (volunteerInvariant (acceptJob "u9" "p1" 5 ⟨[pickupQueued, pickupAssigned], []⟩).1
      ∧ volunteerInvariant (markCollected "p1" 5 ⟨[pickupQueued, pickupAssigned], []⟩).1
      ∧ volunteerInvariant (markDelivered "p1" 5 ⟨[pickupQueued, pickupAssigned], []⟩).1) :=
  ⟨by decide,
   C4_coordinator_preserves_invariant ⟨[pickupQueued, pickupAssigned], []⟩ "u9" "p1" 5
     (by decide)⟩

/-- Claim C5 — counterexample to the claim as stated.  The claim
quantifies over every sequence of mutating operations, but the admin
`updatePickupState` mutation moves a `delivered` pickup straight back to
`queued` in a single transition — a backward move in the order, so the
step is not a legal forward step. -/
theorem C5_counterexample :
    (⟨[pickupDelivered], []⟩ : Store).pickups.map Pickup.state = [PState.delivered]
    ∧ (updatePickupState "p1" PState.queued 9 ⟨[pickupDelivered], []⟩).1.pickups
        = [{ pickupDelivered with state := PState.queued, updated_at := 9 }]
    ∧ ¬ stepOk pickupDelivered
        { pickupDelivered with state := PState.queued, updated_at := 9 }
    ∧ stateRank PState.queued < stateRank PState.delivered :=
  ⟨rfl, by decide, by decide, by decide⟩

/-- Claim C5, amended.  Under each of the three coordinator operations
`acceptJob`, `markCollected` and `markDelivered`, every row of the
`Pickup` table either keeps its state or advances it exactly one
position forward in the order `queued → assigned → collected →
delivered` — never backward, never skipping; the admin
`updatePickupState` mutation, which writes an arbitrary state, is
excluded. -/
theorem C5_coordinator_single_step (s : Store) (uid pid : String) (now : Nat) :
    List.Forall₂ stepOk s.pickups (acceptJob uid pid now s).1.pickups
    ∧ List.Forall₂ stepOk s.pickups (markCollected pid now s).1.pickups
    ∧ List.Forall₂ stepOk s.pickups (markDelivered pid now s).1.pickups := by
  refine ⟨?_, ?_, ?_⟩
  · refine forall₂_updateWhere _ _ _ fun p hp => ?_
    by_cases hc : (p.id == pid && p.state == PState.queued) = true
    · rw [if_pos hc]
      simp only [Bool.and_eq_true, beq_iff_eq] at hc
      right
      rw [hc.2]
      rfl
    · rw [if_neg hc]
      exact Or.inl rfl
  · refine forall₂_updateWhere _ _ _ fun p hp => ?_
    by_cases hc : (p.id == pid && p.state == PState.assigned) = true
    · rw [if_pos hc]
      simp only [Bool.and_eq_true, beq_iff_eq] at hc
      right
      rw [hc.2]
      rfl
    · rw [if_neg hc]
      exact Or.inl rfl
  · refine forall₂_updateWhere _ _ _ fun p hp => ?_
    by_cases hc : (p.id == pid && p.state == PState.collected) = true
    · rw [if_pos hc]
      simp only [Bool.and_eq_true, beq_iff_eq] at hc
      right
      rw [hc.2]
      rfl
    · rw [if_neg hc]
      exact Or.inl rfl

/-- Claim C6 — confirmed, as a statement about the `Pickup` table.  Each
of `acceptJob` (claim), `markCollected` and `markDelivered` acts on the
table as a single conditional write: a row whose stored state equals the
operation's precondition state (and whose id matches) receives exactly
the operation's specified new field values — `acceptJob` sets
`state := assigned` and `volunteer_id := caller`, `markCollected` sets
`state := collected`, `markDelivered` sets `state := delivered`, each
bumps `updated_at` — and every other row is unchanged.  (The
unconditional Impact-ledger append of `markDelivered` is a separate
effect, settled under claim C1.) -/
theorem C6_conditional_write_shape (s : Store) (uid pid : String) (now : Nat) :
    List.Forall₂ (fun old new =>
        new = if old.id = pid ∧ old.state = PState.queued
          then { old with
                  state := PState.assigned
                  volunteer_id := some uid
                  updated_at := now }
          else old)
      s.pickups (acceptJob uid pid now s).1.pickups
    ∧ List.Forall₂ (fun old new =>
        new = if old.id = pid ∧ old.state = PState.assigned
          then { old with state := PState.collected, updated_at := now }
          else old)
      s.pickups (markCollected pid now s).1.pickups
    ∧ List.Forall₂ (fun old new =>
        new = if old.id = pid ∧ old.state = PState.collected
          then { old with state := PState.delivered, updated_at := now }
          else old)
      s.pickups (markDelivered pid now s).1.pickups := by
  refine ⟨?_, ?_, ?_⟩
  · refine forall₂_updateWhere _ _ _ fun p hp => ?_
    by_cases h : p.id = pid ∧ p.state = PState.queued
    · rw [if_pos (by simp [beq_iff_eq, h.1, h.2]), if_pos h]
    · rw [if_neg (by simp only [Bool.and_eq_true, beq_iff_eq]; exact h), if_neg h]
  · refine forall₂_updateWhere _ _ _ fun p hp => ?_
    by_cases h : p.id = pid ∧ p.state = PState.assigned
    · rw [if_pos (by simp [beq_iff_eq, h.1, h.2]), if_pos h]
    · rw [if_neg (by simp only [Bool.and_eq_true, beq_iff_eq]; exact h), if_neg h]
  · refine forall₂_updateWhere _ _ _ fun p hp => ?_
    by_cases h : p.id = pid ∧ p.state = PState.collected
    · rw [if_pos (by simp [beq_iff_eq, h.1, h.2]), if_pos h]
    · rw [if_neg (by simp only [Bool.and_eq_true, beq_iff_eq]; exact h), if_neg h]

end WecanHub
namespace WecanHub

/-- Claim C7 — evaluated at its failing input.  The claim states that the
full-scan aggregation (`index_backup`) and the single-record read
(`index_new`) yield the same `{cans, revenue_pence, meals}` result for
every ledger contents.  On the two-record ledger of the spec's own
example the full scan returns `{30, 15, 3}`, while the `.single()` read
errors (it requires exactly one row) and yields no result; the same
happens on the empty ledger, where the full scan returns `{0, 0, 0}`. -/
theorem C7_single_read_disagrees_with_scan :
    impactTotals ledgerTwo = { cans := 30, revenue_pence := 15, meals := 3 }
    ∧ impactSingle ledgerTwo = none
    ∧ impactTotals [] = { cans := 0, revenue_pence := 0, meals := 0 }
    ∧ impactSingle ([] : List ImpactRow) = none :=
  ⟨by decide, rfl, rfl, rfl⟩

/-- Claim C8 — confirmed.  The full-scan aggregation returns the
elementwise sum of `cans`, `revenue_pence` and `meals` across all Impact
records (null fields counting zero, per the source's `|| 0`), returns
the zero tuple on the empty ledger, is invariant under any reordering of
the records, and on the records `{(10,5,1),(20,10,2)}` returns
`{cans := 30, revenue_pence := 15, meals := 3}`. -/
theorem C8_aggregate_sum (rows : List ImpactRow) :
    (impactTotals rows =
      { cans := (rows.map fun r => r.cans.getD 0).sum
        revenue_pence := (rows.map fun r => r.revenue_pence.getD 0).sum
        meals := (rows.map fun r => r.meals.getD 0).sum })
    ∧ impactTotals [] = { cans := 0, revenue_pence := 0, meals := 0 }
    ∧ (∀ l₂ : List ImpactRow, rows.Perm l₂ → impactTotals rows = impactTotals l₂)
    ∧ impactTotals ledgerTwo = { cans := 30, revenue_pence := 15, meals := 3 } := by
  refine ⟨impactTotals_eq_sums rows, rfl, ?_, by decide⟩
  intro l₂ h
  rw [impactTotals_eq_sums, impactTotals_eq_sums]
  simp only [ImpactTotals.mk.injEq]
  exact ⟨(h.map _).sum_eq, (h.map _).sum_eq, (h.map _).sum_eq⟩

/-- Claim C8 — witness: the reordering component of the theorem applied
to the example ledger and its swap. -/
theorem C8_witness :
    (ledgerTwo.Perm
        [{ cans := some 20, revenue_pence := some 10, meals := some 2 },
         { cans := some 10, revenue_pence := some 5, meals := some 1 }])
    ∧ impactTotals ledgerTwo
        = impactTotals
            [{ cans := some 20, revenue_pence := some 10, meals := some 2 },
             { cans := some 10, revenue_pence := some 5, meals := some 1 }] :=
  ⟨List.Perm.swap _ _ [],
   (C8_aggregate_sum ledgerTwo).2.2.1 _ (List.Perm.swap _ _ [])⟩

/-- Claim C9 — confirmed.  The Job Board read views are exact filtered,
sorted projections of the `Pickup` table (and, being plain functions of
the store, mutate nothing): `availableJobs` is a permutation of exactly
the rows with `state == queued`, sorted by `created_at` ascending, and
`myJobs uid` is a permutation of exactly the rows with
`volunteer_id == uid` and `state` in `{assigned, collected}`, sorted by
`created_at` ascending — so `delivered` and `queued` rows and other
volunteers' rows are excluded, as the final conjunct states
explicitly. -/
theorem C9_job_board_projections (s : Store) (uid : String) :
    (availableJobs s).Perm (s.pickups.filter fun p => p.state == PState.queued)
    ∧ List.Sorted createdLe (availableJobs s)
    ∧ (myJobs uid s).Perm (s.pickups.filter fun p =>
        p.volunteer_id == some uid
          && (p.state == PState.assigned || p.state == PState.collected))
    ∧ List.Sorted createdLe (myJobs uid s)
    ∧ (myJobs uid s).Forall fun p =>
        p.volunteer_id = some uid ∧ p.state ≠ PState.queued
          ∧ p.state ≠ PState.delivered := by
  refine ⟨List.perm_insertionSort _ _, List.sorted_insertionSort _ _,
    List.perm_insertionSort _ _, List.sorted_insertionSort _ _, ?_⟩
  rw [List.forall_iff_forall_mem]
  intro p hp
  have hp' := (List.perm_insertionSort createdLe _).mem_iff.1 hp
  rw [List.mem_filter] at hp'
  obtain ⟨-, hcond⟩ := hp'
  simp only [Bool.and_eq_true, Bool.or_eq_true, beq_iff_eq] at hcond
  obtain ⟨h1, h2⟩ := hcond
  refine ⟨h1, ?_, ?_⟩ <;> rcases h2 with h2 | h2 <;> simp [h2]

/-- Claim C10 — confirmed.  `markCollected` and `markDelivered` never
check that the caller is the pickup's current volunteer: their mutation
functions receive only the pickup id (no actor context at all), every
row in the required precondition state transitions regardless of the
`volunteer_id` it carries (which is left untouched), and the outcome is
`success` — never `InvalidActor`. -/
theorem C10_no_ownership_check (s : Store) (pid : String) (now : Nat) :
    List.Forall₂ (fun old new =>
        new.state = (if old.id = pid ∧ old.state = PState.assigned
          then PState.collected else old.state)
        ∧ new.volunteer_id = old.volunteer_id)
      s.pickups (markCollected pid now s).1.pickups
    ∧ (markCollected pid now s).2 = Outcome.success
    ∧ List.Forall₂ (fun old new =>
        new.state = (if old.id = pid ∧ old.state = PState.collected
          then PState.delivered else old.state)
        ∧ new.volunteer_id = old.volunteer_id)
      s.pickups (markDelivered pid now s).1.pickups
    ∧ (markDelivered pid now s).2 = Outcome.success
    ∧ Outcome.success ≠ Outcome.invalidActor := by
  refine ⟨?_, rfl, ?_, rfl, by simp⟩
  · refine forall₂_updateWhere _ _ _ fun p hp => ?_
    by_cases h : p.id = pid ∧ p.state = PState.assigned
    · rw [if_pos (by simp [beq_iff_eq, h.1, h.2]), if_pos h]
      exact ⟨rfl, rfl⟩
    · rw [if_neg (by simp only [Bool.and_eq_true, beq_iff_eq]; exact h), if_neg h]
      exact ⟨rfl, rfl⟩
  · refine forall₂_updateWhere _ _ _ fun p hp => ?_
    by_cases h : p.id = pid ∧ p.state = PState.collected
    · rw [if_pos (by simp [beq_iff_eq, h.1, h.2]), if_pos h]
      exact ⟨rfl, rfl⟩
    · rw [if_neg (by simp only [Bool.and_eq_true, beq_iff_eq]; exact h), if_neg h]
      exact ⟨rfl, rfl⟩

end WecanHub
